import Mathlib

/-!
Shallow embedding of the Regupulse scanning pipeline
(src/unnamed/part_000, a Deno/TypeScript serverless function) and proofs
about it.  JavaScript strings are modelled as Lean `String`s, JS `Set`s as
`List String` membership, optional/undefined fields as `Option`, epoch
milliseconds as `Int`, and the network / DOM / store as explicit oracle
parameters.  Each definition is translated from the source function named
in its doc comment.
-/

namespace Regupulse

/-! ### String utilities shared by the source's regex idioms -/

/-- Remainder of the list after the first `'>'`, if any: the tail a
`[^>]*>` regex step leaves behind. -/
def dropThroughGt : List Char → Option (List Char)
  | [] => none
  | c :: rest => if c = '>' then some rest else dropThroughGt rest

/-- Model of `.replace(/<[^>]*>/g, '')` on a char list: every `<...>` span (up to
the first `'>'`) is removed; a `'<'` with no later `'>'` is kept as-is,
as the regex leaves it unmatched.  Structural recursion on a fuel that
starts at the list length (each step strictly shrinks the list, so the
fuel never runs out). -/
def stripTagsGo : Nat → List Char → List Char
  | 0, l => l
  | _ + 1, [] => []
  | fuel + 1, c :: rest =>
    if c = '<' then
      match dropThroughGt rest with
      | some rest' => stripTagsGo fuel rest'
      | none => c :: rest
    else c :: stripTagsGo fuel rest

/-- Model of `s.replace(/<[^>]*>/g, '')`. -/
def stripTags (s : String) : String :=
  String.mk (stripTagsGo s.data.length s.data)

/-- Model of `.replace(/\s+/g, ' ')` on a char list: collapse each whitespace run
to a single space.  Fuel-structural like `stripTagsGo`. -/
def collapseWsGo : Nat → List Char → List Char
  | 0, l => l
  | _ + 1, [] => []
  | fuel + 1, c :: rest =>
    if c.isWhitespace then
      ' ' :: collapseWsGo fuel (rest.dropWhile Char.isWhitespace)
    else
      c :: collapseWsGo fuel rest

/-- Model of `s.replace(/\s+/g, ' ')`. -/
def collapseWs (s : String) : String :=
  String.mk (collapseWsGo s.data.length s.data)

/-- Whether the char list contains a `'<'` that is followed (anywhere
later) by a `'>'` — i.e. whether a `<...>` tag span could still be
matched in it.  The flag records that a `'<'` has been seen. -/
def hasTagFrom : Bool → List Char → Bool
  | _, [] => false
  | seen, c :: rest =>
    if seen = true ∧ c = '>' then true
    else if c = '<' then hasTagFrom true rest
    else hasTagFrom seen rest

/-- Whether the string still contains a (completable) `<...>` tag. -/
def containsTag (s : String) : Bool :=
  hasTagFrom false s.data

/-- JS `s.toLowerCase()` (character-wise, as all inputs of interest are
ASCII). -/
def jsLower (s : String) : String :=
  String.mk (s.data.map Char.toLower)

/-- JS `s.trim()`: strip leading and trailing whitespace. -/
def jsTrim (s : String) : String :=
  String.mk (((s.data.dropWhile Char.isWhitespace).reverse.dropWhile
    Char.isWhitespace).reverse)

/-- JS `s.startsWith(pat)`. -/
def jsStartsWith (s pat : String) : Bool :=
  pat.data.isPrefixOf s.data

/-- JS `s.substring(0, n)`. -/
def jsTake (s : String) (n : Nat) : String :=
  String.mk (s.data.take n)

/-- JS `arr.join(sep)`. -/
def jsJoin (sep : String) : List String → String
  | [] => ""
  | [s] => s
  | s :: rest => s ++ sep ++ jsJoin sep rest

/-- JS truthiness chain `a || b` on strings: `""` is falsy. -/
def jsOr (a b : String) : String :=
  if a = "" then b else a

/-- JS `x?.y || b` where the probe yields `Option String`:
`undefined` and `""` both fall through. -/
def jsOrOpt (a : Option String) (b : String) : String :=
  match a with
  | none => b
  | some s => if s = "" then b else s

/-- First truthy value of a `||` chain of optional-string probes
(`undefined` and `""` are falsy), else `""`. -/
def firstTruthy : List (Option String) → String
  | [] => ""
  | p :: rest => jsOrOpt p (firstTruthy rest)

/-! ### Retrying fetcher (`fetchWithRetry`, source lines 72–127) -/

/-- One network attempt's outcome: a thrown fetch error (timeout,
connection reset, ...) with its message, or an HTTP response with its
status code. -/
inductive FetchResp where
  | netError (msg : String)
  | http (status : Nat)
deriving DecidableEq, Repr

/-- JS `response.ok`: status in 200..299. -/
def respOk (status : Nat) : Bool :=
  200 ≤ status ∧ status < 300

/-- Return value of `fetchWithRetry`: `{success: true, response, attempt}`
or `{success: false, error, attempt}` (`error` may be `undefined` when
the loop never ran). -/
inductive FetchResult where
  | success (status : Nat) (attempt : Nat)
  | failure (error : Option String) (attempt : Nat)
deriving DecidableEq, Repr

/-- The body of `fetchWithRetry`'s `for` loop, recursing on the number of
remaining iterations; `attempt` is the loop counter and `lastError` the
mutable `lastError` variable.  The server is an oracle from attempt
index to that attempt's outcome.  Mirrors source lines 75–124:
a 2xx returns success; a 429 with `attempt < maxRetries - 1`
(i.e. `remaining ≥ 1` more iterations) waits and `continue`s without
touching `lastError`; any other 4xx — including a 429 on the final
iteration, which falls through to the 4xx check — returns failure
immediately with the current attempt count; other statuses and thrown
errors set `lastError` and retry. -/
def fetchWithRetryGo (server : Nat → FetchResp) (maxRetries : Nat) :
    Nat → Nat → Option String → FetchResult
  | 0, _, lastError => .failure lastError maxRetries
  | remaining + 1, attempt, lastError =>
    match server attempt with
    | .netError msg => fetchWithRetryGo server maxRetries remaining (attempt + 1) (some msg)
    | .http status =>
      if respOk status then
        .success status (attempt + 1)
      else if status = 429 ∧ 1 ≤ remaining then
        fetchWithRetryGo server maxRetries remaining (attempt + 1) lastError
      else if 400 ≤ status ∧ status < 500 then
        .failure (some s!"HTTP {status}") (attempt + 1)
      else
        fetchWithRetryGo server maxRetries remaining (attempt + 1) (some s!"HTTP {status}")

/-- Model of `fetchWithRetry(url, options, maxRetries)` (source lines 72–127),
with the network abstracted as the `server` oracle. -/
def fetchWithRetry (server : Nat → FetchResp) (maxRetries : Nat := 3) : FetchResult :=
  fetchWithRetryGo server maxRetries maxRetries 0 none

/-! ### Case-insensitive scanning helpers for the regex fallback parser -/

/-- Case-insensitive `List.isPrefixOf` on char lists. -/
def startsWithCI : List Char → List Char → Bool
  | [], _ => true
  | _ :: _, [] => false
  | p :: ps, c :: cs => p.toLower = c.toLower && startsWithCI ps cs

/-- Split at the first case-insensitive occurrence of `pat`, returning the
text before it and the text after it (the leftmost-lazy step of a
`([\s\S]*?)pat` regex with the `i` flag). -/
def splitFirstCI (pat : List Char) : List Char → Option (List Char × List Char)
  | [] => if pat.isEmpty then some ([], []) else none
  | c :: rest =>
    if startsWithCI pat (c :: rest) then some ([], (c :: rest).drop pat.length)
    else
      match splitFirstCI pat rest with
      | some (pre, post) => some (c :: pre, post)
      | none => none

/-- Match of `<tag[^>]*>` at the head of `l` (case-insensitive): requires the
literal `<` ++ tag, then skips to the first `'>'`; returns the remainder
after it. -/
def tagOpenAt (tag : List Char) (l : List Char) : Option (List Char) :=
  if startsWithCI ('<' :: tag) l then dropThroughGt (l.drop (tag.length + 1)) else none

/-- All lazy `openTag([\s\S]*?)closeTag` block contents, scanned left to
right (global, case-insensitive).  Fuel-bounded by the input length,
which is enough iterations for any non-empty tags. -/
def splitBlocksGo (openTag closeTag : List Char) : Nat → List Char → List (List Char)
  | 0, _ => []
  | fuel + 1, l =>
    match splitFirstCI openTag l with
    | none => []
    | some (_, afterOpen) =>
      match splitFirstCI closeTag afterOpen with
      | none => []
      | some (content, afterClose) =>
        content :: splitBlocksGo openTag closeTag fuel afterClose

/-- All `openTag...closeTag` block contents of the string. -/
def splitBlocksCI (openTag closeTag : String) (s : String) : List String :=
  (splitBlocksGo openTag.data closeTag.data s.data.length s.data).map String.mk

/-! ### Text normalization (`extractTextContent`, source lines 438–444) -/

/-- A text-bearing feed value as the XML parser delivers it: a plain
string, a `{#text: ...}` wrapper, or a `{#cdata: ...}` wrapper. -/
inductive FeedText where
  | plain (s : String)
  | textNode (s : String)
  | cdataNode (s : String)
deriving DecidableEq, Repr

/-- Model of `extractTextContent(value)` (source lines 438–444).  `none` models a
missing (`undefined`/`null`) value.  Note the source trims FIRST and
strips tags SECOND (`value.trim().replace(/<[^>]*>/g, '')`); for the
wrapper shapes an empty wrapped string is falsy in JS and falls through
to `''`. -/
def extractTextContent : Option FeedText → String
  | none => ""
  | some (.plain s) => stripTags (jsTrim s)
  | some (.textNode s) => if s = "" then "" else stripTags (jsTrim s)
  | some (.cdataNode s) => if s = "" then "" else stripTags (jsTrim s)

/-- Search step of `extractTagFallback(xml, tagName)` (source lines
446–453): at each position, first try
`<tag[^>]*><![CDATA[([\s\S]*?)]]></tag>`, then
`<tag[^>]*>([\s\S]*?)</tag>`; leftmost match wins; case-insensitive. -/
def extractTagFallbackAux (tag : List Char) : List Char → Option (List Char)
  | [] => none
  | c :: rest =>
    match tagOpenAt tag (c :: rest) with
    | some afterOpen =>
      if startsWithCI "<![CDATA[".data afterOpen then
        match splitFirstCI ("]]></".data ++ tag ++ ['>']) (afterOpen.drop 9) with
        | some (content, _) => some content
        | none =>
          match splitFirstCI ("</".data ++ tag ++ ['>']) afterOpen with
          | some (content, _) => some content
          | none => extractTagFallbackAux tag rest
      else
        match splitFirstCI ("</".data ++ tag ++ ['>']) afterOpen with
        | some (content, _) => some content
        | none => extractTagFallbackAux tag rest
    | none => extractTagFallbackAux tag rest

/-- Model of `extractTagFallback(xml, tagName)` (source lines 446–453): the
matched group, trimmed then tag-stripped; `''` when nothing matches. -/
def extractTagFallback (xml tag : String) : String :=
  match extractTagFallbackAux tag.data xml.data with
  | some content => stripTags (jsTrim (String.mk content))
  | none => ""

/-! ### Feed data model and `parseRssFeed` (source lines 320–436) -/

/-- A candidate article as produced by the parser/scraper
(`RawItem` in the spec).  Absent JS fields are `""` / `none`. -/
structure RawItem where
  title : String
  link : String
  description : String
  pubDate : String
  author : String := ""
  source : String
  fullContent : Option String := none
deriving DecidableEq, Repr

/-- Model of `Array.isArray(x) ? x : [x]`: an XML field holding either a single
node or an array of nodes. -/
inductive ListOrSingle (α : Type) where
  | one (a : α)
  | many (l : List α)
deriving DecidableEq, Repr

def ListOrSingle.toList {α : Type} : ListOrSingle α → List α
  | .one a => [a]
  | .many l => l

/-- A parsed `<item>` node (RSS 2.0 channel item or RDF item).
`linkHref` models the `item.link?.['@href']` probe on the same
`link` value. -/
structure RssItem where
  title : Option FeedText
  link : Option FeedText
  linkHref : Option String
  description : Option FeedText
  pubDate : Option FeedText
  dcDate : Option FeedText
deriving DecidableEq, Repr

/-- One object of an Atom `entry.link` array, with its `@href`, `@rel`
and `@type` attributes. -/
structure AtomLink where
  href : Option String
  rel : Option String
  ltype : Option String
deriving DecidableEq, Repr

/-- The `entry.link` field: absent, a single node (with an optional
`@href` attribute and a text reading), or an array of link objects. -/
inductive AtomLinkField where
  | absent
  | single (href : Option String) (text : Option FeedText)
  | multi (links : List AtomLink)
deriving DecidableEq, Repr

/-- A parsed Atom `<entry>` node. -/
structure AtomEntry where
  title : Option FeedText
  link : AtomLinkField
  summary : Option FeedText
  content : Option FeedText
  published : Option FeedText
  updated : Option FeedText
deriving DecidableEq, Repr

/-- The outcome of `parseXML` on a feed: the three branch roots
(`parsed?.rss?.channel?.item`, `parsed?.feed?.entry`,
`parsed?.['rdf:RDF']?.item`), `none` when absent. -/
structure ParsedFeed where
  rssItems : Option (ListOrSingle RssItem)
  atomEntries : Option (ListOrSingle AtomEntry)
  rdfItems : Option (ListOrSingle RssItem)
deriving DecidableEq, Repr

/-- Link resolution for an Atom entry (source lines 354–362): an array
prefers the `@type === 'text/html'` / `@rel === 'alternate'` member,
else the first member's `@href`; a single node uses `['@href'] ||
extractTextContent`. -/
def atomEntryLink : AtomLinkField → String
  | .absent => ""
  | .single href text => jsOrOpt href (extractTextContent text)
  | .multi links =>
    let htmlLink := links.find? fun l => l.ltype = some "text/html" || l.rel = some "alternate"
    jsOrOpt (htmlLink.bind (·.href)) (jsOrOpt (links.head?.bind (·.href)) "")

/-- The RSS 2.0 branch body (source lines 332–341): one `RawItem` per
node with a truthy title; titleless nodes are skipped. -/
def rssBranchItems (nodes : List RssItem) (feedName : String) : List RawItem :=
  nodes.filterMap fun item =>
    let title := extractTextContent item.title
    let link := jsOr (extractTextContent item.link) (jsOrOpt item.linkHref "")
    let description := extractTextContent item.description
    let pubDate := jsOr (extractTextContent item.pubDate) (extractTextContent item.dcDate)
    if title ≠ "" then
      some { title, link, description, pubDate, source := feedName }
    else none

/-- The Atom branch body (source lines 350–370). -/
def atomBranchItems (nodes : List AtomEntry) (feedName : String) : List RawItem :=
  nodes.filterMap fun entry =>
    let title := extractTextContent entry.title
    let link := atomEntryLink entry.link
    let description := jsOr (extractTextContent entry.summary) (extractTextContent entry.content)
    let pubDate := jsOr (extractTextContent entry.published) (extractTextContent entry.updated)
    if title ≠ "" then
      some { title, link, description, pubDate, source := feedName }
    else none

/-- The RDF branch body (source lines 379–388). -/
def rdfBranchItems (nodes : List RssItem) (feedName : String) : List RawItem :=
  nodes.filterMap fun item =>
    let title := extractTextContent item.title
    let link := extractTextContent item.link
    let description := extractTextContent item.description
    let pubDate := extractTextContent item.dcDate
    if title ≠ "" then
      some { title, link, description, pubDate, source := feedName }
    else none

/-- Quote handling of `match(/<link[^>]*href=["']([^"']*)["']/)`: a quote
char, a greedy run of non-quote chars, a closing quote char. -/
def squote : Char := Char.ofNat 39

/-- Capture of `["']([^"']*)["']` at the head of `l`. -/
def quoteCapture (l : List Char) : Option (List Char) :=
  match l with
  | q :: rest =>
    if q = '"' ∨ q = squote then
      -- capture up to the first quote char, which must exist
      let content := rest.takeWhile fun ch => ch ≠ '"' ∧ ch ≠ squote
      if content.length < rest.length then some content else none
    else none
  | [] => none

/-- Match of `href=["']([^"']*)["']` at the head of `l`. -/
def tryHrefAt (l : List Char) : Option (List Char) :=
  if "href=".data.isPrefixOf l then quoteCapture (l.drop 5) else none

/-- The entry fallback's `entryXml.match(/<link[^>]*href=["']([^"']*)["']/)`
(source line 424): scan for `<link`, let the greedy `[^>]*` backtrack from
the end of the non-`'>'` run, and capture the quoted href. -/
def linkHrefMatchAux : List Char → Option (List Char)
  | [] => none
  | c :: rest =>
    if "<link".data.isPrefixOf (c :: rest) then
      let after := (c :: rest).drop 5
      let maxRun := (after.takeWhile fun ch => ch ≠ '>').length
      match ((List.range (maxRun + 1)).reverse.findSome? fun k => tryHrefAt (after.drop k)) with
      | some content => some content
      | none => linkHrefMatchAux rest
    else linkHrefMatchAux rest

def linkHrefMatch (s : String) : Option String :=
  (linkHrefMatchAux s.data).map String.mk

/-- Model of `parseRssFeedFallback(xmlText, feedName)` (source lines 399–436):
regex-extract `<item>` blocks; if none produced an item, regex-extract
`<entry>` blocks.  Only blocks with a truthy extracted title are kept. -/
def parseRssFeedFallback (xmlText feedName : String) : List RawItem :=
  let items := (splitBlocksCI "<item>" "</item>" xmlText).filterMap fun itemXml =>
    let title := extractTagFallback itemXml "title"
    let link := extractTagFallback itemXml "link"
    let description := extractTagFallback itemXml "description"
    let pubDate := jsOr (extractTagFallback itemXml "pubDate") (extractTagFallback itemXml "dc:date")
    if title ≠ "" then
      some { title, link, description, pubDate, source := feedName }
    else none
  if items.length = 0 then
    (splitBlocksCI "<entry>" "</entry>" xmlText).filterMap fun entryXml =>
      let title := extractTagFallback entryXml "title"
      let link := (linkHrefMatch entryXml).getD ""
      let description := jsOr (extractTagFallback entryXml "summary") (extractTagFallback entryXml "content")
      let pubDate := jsOr (extractTagFallback entryXml "published") (extractTagFallback entryXml "updated")
      if title ≠ "" then
        some { title, link, description, pubDate, source := feedName }
      else none
  else items

/-- Model of `parseRssFeed(xmlText, feedName)` (source lines 320–396).
`parsed = none` models `parseXML` throwing, which diverts to the regex
fallback; otherwise all matching structured branches are processed in
order (RSS 2.0, Atom, RDF). -/
def parseRssFeed (parsed : Option ParsedFeed) (xmlText feedName : String) : List RawItem :=
  match parsed with
  | none => parseRssFeedFallback xmlText feedName
  | some p =>
    (match p.rssItems with
      | some ns => rssBranchItems ns.toList feedName
      | none => []) ++
    (match p.atomEntries with
      | some ns => atomBranchItems ns.toList feedName
      | none => []) ++
    (match p.rdfItems with
      | some ns => rdfBranchItems ns.toList feedName
      | none => [])

/-! ### Date-range filter (`isWithinDateRange`, source lines 455–465) -/

/-- Model of `isWithinDateRange(dateStr, dateRangeDays)`.  Here `new Date(dateStr)` is
the oracle `parseDate` (epoch milliseconds; `none` = Invalid Date, whose
`NaN` timestamp makes `itemDate >= cutoffDate` false).  The
`setDate(getDate() - n)` calendar arithmetic is modelled as `n` days of
milliseconds; no claim depends on the cutoff's exact value.  The
source's `catch` is unreachable (`new Date` never throws). -/
def isWithinDateRange (parseDate : String → Option Int) (now : Int)
    (dateStr : String) (dateRangeDays : Int := 14) : Bool :=
  if dateStr = "" then true
  else
    let cutoff := now - dateRangeDays * 86400000
    match parseDate dateStr with
    | none => false
    | some itemDate => cutoff ≤ itemDate

/-! ### RSS fetch and source health (source lines 468–530, 851–871) -/

/-- A configured RSS feed (`RSS_FEEDS` entry). -/
structure Feed where
  name : String
  url : String
  region : String
deriving DecidableEq, Repr

/-- A `SourceHealth` record as built by the fetchers and stored by the
orchestrator; `Option` fields model JS properties that may be absent. -/
structure HealthRecord where
  source_name : String
  source_url : String
  source_type : String
  last_check : String
  status : String := ""
  last_success : Option String := none
  items_fetched : Option Nat := none
  error_message : Option String := none
  consecutive_failures : Option Nat := none
  retries_used : Option Nat := none
deriving DecidableEq, Repr

/-- Return value of `fetchRssFeed` / `fetchScrapeSite`. -/
structure FeedFetchResult where
  items : List RawItem
  health : HealthRecord
  error : Option String
deriving DecidableEq, Repr

/-- Model of `fetchRssFeed(feed, dateRangeDays)` (source lines 468–499), with the
fetch outcome, parse outcome and body passed explicitly.  On success the
in-range items are capped at 20 and the health record is `healthy` with
`consecutive_failures = 0`; on failure the record is `failing` and —
note — carries NO `consecutive_failures` property. -/
def fetchRssFeed (feed : Feed) (fetchResult : FetchResult)
    (parsed : Option ParsedFeed) (xmlText : String)
    (parseDate : String → Option Int) (now : Int) (nowIso : String)
    (dateRangeDays : Int := 14) : FeedFetchResult :=
  let healthRecord : HealthRecord :=
    { source_name := feed.name, source_url := feed.url
      source_type := "rss", last_check := nowIso }
  match fetchResult with
  | .success _ attempt =>
    let items := parseRssFeed parsed xmlText feed.name
    let recentItems :=
      (items.filter fun item => isWithinDateRange parseDate now item.pubDate dateRangeDays).take 20
    { items := recentItems
      health := { healthRecord with
        status := "healthy", last_success := some nowIso
        items_fetched := some recentItems.length
        consecutive_failures := some 0, retries_used := some attempt }
      error := none }
  | .failure err attempt =>
    { items := []
      health := { healthRecord with
        status := "failing", error_message := err, retries_used := some attempt }
      error := some ("RSS " ++ feed.name ++ ": " ++ err.getD "undefined") }

/-- Patch-merge of one optional field: a property present in the patch
overwrites, an absent one keeps the stored value. -/
def patchField {α : Type} (patch stored : Option α) : Option α :=
  match patch with
  | some v => some v
  | none => stored

/-- The `SourceHealth.update(prev.id, {...health, consecutive_failures})`
call (source lines 856–862): `consecutive_failures` becomes
`prev.consecutive_failures || 0` plus one on `failing` status and `0`
otherwise; every other patched field overwrites when present. -/
def updateHealthRecord (prev health : HealthRecord) : HealthRecord :=
  let consecutiveFailures :=
    if health.status = "failing" then prev.consecutive_failures.getD 0 + 1 else 0
  { source_name := health.source_name
    source_url := health.source_url
    source_type := health.source_type
    last_check := health.last_check
    status := health.status
    last_success := patchField health.last_success prev.last_success
    items_fetched := patchField health.items_fetched prev.items_fetched
    error_message := patchField health.error_message prev.error_message
    consecutive_failures := some consecutiveFailures
    retries_used := patchField health.retries_used prev.retries_used }

/-- One iteration of `healthUpdatePromises` (source lines 851–869) for a
single source: update the existing record if one is stored, else create
the incoming record as-is. -/
def applyHealthUpdate (stored : Option HealthRecord) (health : HealthRecord) :
    HealthRecord :=
  match stored with
  | some prev => updateHealthRecord prev health
  | none => health

/-- The per-scan inputs of one `fetchRssFeed` call. -/
structure RssScanEnv where
  fetchResult : FetchResult
  parsed : Option ParsedFeed
  xmlText : String
  nowIso : String
deriving Repr

/-- The stored health record of one RSS source after a sequence of
scans, starting from no record: each scan runs `fetchRssFeed` and then
the health-update phase. -/
def healthAfterScans (feed : Feed) (parseDate : String → Option Int) (now : Int)
    (dateRangeDays : Int) (scans : List RssScanEnv) : Option HealthRecord :=
  scans.foldl
    (fun stored env =>
      some (applyHealthUpdate stored
        (fetchRssFeed feed env.fetchResult env.parsed env.xmlText
          parseDate now env.nowIso dateRangeDays).health))
    none

/-! ### Deduplication (`deduplicateItems`, source lines 618–683) -/

/-- A persisted `RegulatoryUpdate` record, as read back for
deduplication.  `created_date` (epoch ms) is carried only so the
spec-described recency bound can be expressed; the shipped query never
consults it. -/
structure RegulatoryUpdate where
  title : String
  source_url : String
  created_date : Int
deriving DecidableEq, Repr

/-- The batch item's title key, `item.title?.toLowerCase().trim()`. -/
def titleKey (item : RawItem) : String :=
  jsTrim (jsLower item.title)

/-- The batch item's URL key, `item.link?.toLowerCase().trim()`;
(`""` plays the role of a falsy key). -/
def urlKey (item : RawItem) : String :=
  jsTrim (jsLower item.link)

/-- Phase A of `deduplicateItems` (source lines 620–632): one pass over
the batch carrying the `seenInBatch` / `seenUrlsInBatch` sets.  An item
is dropped when its title key was seen, or its URL key is truthy and was
seen; a KEPT item records its title key and (when truthy) URL key — a
dropped item records nothing. -/
def batchDedupeAux : List RawItem → List String → List String → List RawItem
  | [], _, _ => []
  | item :: rest, seenInBatch, seenUrlsInBatch =>
    if seenInBatch.contains (titleKey item) then
      batchDedupeAux rest seenInBatch seenUrlsInBatch
    else if urlKey item ≠ "" ∧ seenUrlsInBatch.contains (urlKey item) then
      batchDedupeAux rest seenInBatch seenUrlsInBatch
    else
      item :: batchDedupeAux rest (titleKey item :: seenInBatch)
        (if urlKey item ≠ "" then urlKey item :: seenUrlsInBatch else seenUrlsInBatch)

/-- The intra-batch pass of `deduplicateItems` (`batchDeduped`). -/
def batchDedupe (items : List RawItem) : List RawItem :=
  batchDedupeAux items [] []

/-- Model of `deduplicateItems(items, base44)` (source lines 618–683).
`queryResult` is the outcome of the
`RegulatoryUpdate.filter({})` store call: `none` models the query
throwing (the function then degrades to the batch-deduped list).  The
fetched records are capped at the first 500, the title and URL
membership sets are built with empty keys removed, and batch items
matching either set are dropped. -/
def deduplicateItems (items : List RawItem)
    (queryResult : Option (List RegulatoryUpdate)) : List RawItem :=
  let batchDeduped := batchDedupe items
  if batchDeduped.length = 0 then []
  else
    -- the source also computes `newUrls` / `newTitles` here (lines
    -- 637–643); they are never used by the query and are omitted
    match queryResult with
    | none => batchDeduped
    | some fetched =>
      let existingUpdates := if 500 < fetched.length then fetched.take 500 else fetched
      let existingTitles := (existingUpdates.map fun u => jsTrim (jsLower u.title)).filter (· ≠ "")
      let existingUrls := (existingUpdates.map fun u => jsTrim (jsLower u.source_url)).filter (· ≠ "")
      batchDeduped.filter fun item =>
        if existingTitles.contains (titleKey item) then false
        else if urlKey item ≠ "" ∧ existingUrls.contains (urlKey item) then false
        else true

/-- The store query the shipped code performs (source line 653):
`filter({})`, i.e. every record regardless of age — the `sixtyDaysAgo`
cutoff computed on lines 650–651 is never used. -/
def dedupQueryCode (store : List RegulatoryUpdate) : List RegulatoryUpdate :=
  store

/-- The store query as the spec (and the source's own comment, line 648)
describes it: records of the recent 60-day window only.  This definition
follows the spec's words, for comparison with `dedupQueryCode`. -/
def dedupQuerySpecWindow (now : Int) (store : List RegulatoryUpdate) :
    List RegulatoryUpdate :=
  store.filter fun u => decide (now - 60 * 86400000 ≤ u.created_date)

/-! ### Site scraper (`scrapeWebsite`, source lines 130–317) -/

/-- Whether `pat` occurs as a contiguous run somewhere in `l`. -/
def subOccursIn (pat : List Char) : List Char → Bool
  | [] => pat.isEmpty
  | c :: rest => pat.isPrefixOf (c :: rest) || subOccursIn pat rest

/-- JS `haystack.includes(needle)`. -/
def includesStr (s sub : String) : Bool :=
  subOccursIn sub.data s.data

/-- A scrape source configuration.  Selector/pattern strings are only
ever tested for presence by the loop bodies, so they are carried as
flags; `urlOrigin` models `new URL(config.url).origin`. -/
structure ScrapeConfig where
  name : String
  url : String
  urlOrigin : String
  baseUrl : Option String
  useRegexOnly : Bool := false
  hasTitlePattern : Bool := true
  hasTitleSelector : Bool := false
  hasDateSelector : Bool := false
  hasDatePattern : Bool := false
  hasDescriptionSelector : Bool := false
  hasAuthorSelector : Bool := false
deriving DecidableEq, Repr

/-- One `titlePattern` regex match with its four capture groups
(`match[1]`..`match[4]`). -/
structure RegexMatch where
  g1 : Option String
  g2 : Option String
  g3 : Option String
  g4 : Option String
deriving DecidableEq, Repr

/-- The regex-only stoplist (source lines 164–167):
`view all` / `read more` / `subscribe`, tested on the lowercased title. -/
def stoplistRegexOnly (title : String) : Bool :=
  includesStr (jsLower title) "view all" ||
  includesStr (jsLower title) "read more" ||
  includesStr (jsLower title) "subscribe"

/-- The DOM-mode stoplist (source lines 218–221): the regex-only entries
PLUS `sign up`. -/
def stoplistDom (title : String) : Bool :=
  includesStr (jsLower title) "view all" ||
  includesStr (jsLower title) "read more" ||
  includesStr (jsLower title) "subscribe" ||
  includesStr (jsLower title) "sign up"

/-- Relative-link resolution against a base (`base + link`, with a `/`
inserted unless the link already starts with one). -/
def resolveLink (base link : String) : String :=
  if jsStartsWith link "/" then base ++ link else base ++ "/" ++ link

/-- The regex-only extraction loop of `scrapeWebsite` (source lines
152–176), over the (already capped) match list, carrying the `seen`
set.  Order matters: the lowercased title enters `seen` BEFORE the
stoplist/length-300 test, the length gate is `< 15`, and the title is
tag-stripped then whitespace-collapsed then trimmed. -/
def scrapeRegexOnlyAux (config : ScrapeConfig) (nowIso : String) :
    List RegexMatch → List String → List RawItem
  | [], _ => []
  | m :: rest, seen =>
    let link := jsOrOpt m.g1 (jsOrOpt m.g3 "")
    let title := jsTrim (collapseWs (stripTags (jsOrOpt m.g2 (jsOrOpt m.g4 ""))))
    if title = "" ∨ title.length < 15 ∨ seen.contains (jsLower title) then
      scrapeRegexOnlyAux config nowIso rest seen
    else
      let seen' := jsLower title :: seen
      let link :=
        if link ≠ "" ∧ ¬jsStartsWith link "http" then
          match config.baseUrl with
          | some b => resolveLink b link
          | none => link
        else link
      if stoplistRegexOnly title ∨ 300 < title.length then
        scrapeRegexOnlyAux config nowIso rest seen'
      else
        { title, link, description := "", pubDate := nowIso, source := config.name } ::
          scrapeRegexOnlyAux config nowIso rest seen'

/-- The regex-only mode of `scrapeWebsite` (matches capped at 20,
fresh `seen` set). -/
def scrapeRegexOnly (config : ScrapeConfig) (patternMatches : List RegexMatch)
    (nowIso : String) : List RawItem :=
  scrapeRegexOnlyAux config nowIso (patternMatches.take 20) []

/-- One element the DOM query yielded, with the loop's per-element DOM
probes resolved: the located anchor (if any), its trimmed text and
href, and the date/description/author sub-selector readings. -/
structure DomElement where
  anchorFound : Bool
  textTitle : String
  href : String
  dateSelProbe : Option String
  dateGenProbe : Option String
  descProbe : Option String
  authorSelProbe : Option String
  authorGenProbe : Option String
deriving DecidableEq, Repr

/-- The DOM-mode extraction loop of `scrapeWebsite` (source lines
191–282), over the (already capped) element list, carrying the `seen`
set.  Order matters: the length gate is `< 10`, the stoplist adds
`sign up`, and the lowercased title enters `seen` AFTER the stoplist
test. -/
def scrapeDomAux (config : ScrapeConfig) (nowIso : String) :
    List DomElement → List String → List RawItem
  | [], _ => []
  | el :: rest, seen =>
    if ¬el.anchorFound then scrapeDomAux config nowIso rest seen
    else
      let title := jsTrim (collapseWs el.textTitle)
      if title = "" ∨ title.length < 10 ∨ seen.contains (jsLower title) then
        scrapeDomAux config nowIso rest seen
      else if stoplistDom title ∨ 300 < title.length then
        scrapeDomAux config nowIso rest seen
      else
        let seen' := jsLower title :: seen
        let link := el.href
        let link :=
          if link ≠ "" ∧ ¬jsStartsWith link "http" then
            match config.baseUrl with
            | some b => resolveLink b link
            | none => resolveLink config.urlOrigin link
          else link
        let pubDate :=
          if config.hasDateSelector then jsOrOpt el.dateSelProbe nowIso
          else if config.hasDatePattern then nowIso
          else jsOrOpt el.dateGenProbe nowIso
        let description :=
          if config.hasDescriptionSelector then el.descProbe.getD "" else ""
        let author :=
          if config.hasAuthorSelector then el.authorSelProbe.getD ""
          else el.authorGenProbe.getD ""
        { title, link, description, pubDate, author, source := config.name } ::
          scrapeDomAux config nowIso rest seen'

/-- The DOM-query mode of `scrapeWebsite` (elements capped at 20,
fresh `seen` set). -/
def scrapeDom (config : ScrapeConfig) (elements : List DomElement)
    (nowIso : String) : List RawItem :=
  scrapeDomAux config nowIso (elements.take 20) []

/-! ### Content enricher (`enrichArticleContent`, source lines 533–615) -/

/-- The article page as the enricher's probes read it: the fetch and
DOM-parse outcomes, the five meta-date probes, the five author probes,
the eight content-selector query results (raw `textContent`), and the
`<p>` elements' `textContent`s. -/
structure PageData where
  fetchSuccess : Bool
  docOk : Bool
  metaProbes : List (Option String)
  authorProbes : List (Option String)
  selectorTexts : List (Option String)
  paragraphs : List String
deriving Repr

/-- Model of `enrichArticleContent(item)` (source lines 533–615): skip items
without an absolute (`http`-prefixed) link or with a failed fetch/parse;
else overwrite `pubDate` with the first truthy meta date, fill a missing
author, extract main content (first selector whose trimmed text exceeds
300 chars, else at least three paragraphs of more than 60 chars joined
by blank lines), store it whitespace-collapsed and truncated to 8000
chars, and replace a weak description (absent or under 150 chars) by the
first 300 chars plus an ellipsis. -/
def enrichArticleContent (page : PageData) (item : RawItem) : RawItem :=
  if item.link = "" ∨ ¬jsStartsWith item.link "http" then item
  else if ¬page.fetchSuccess then item
  else if ¬page.docOk then item
  else
    let metaDate := firstTruthy page.metaProbes
    let item := if metaDate ≠ "" then { item with pubDate := metaDate } else item
    let item :=
      if item.author = "" then
        let author := firstTruthy page.authorProbes
        if author ≠ "" then { item with author } else item
      else item
    let content :=
      match page.selectorTexts.findSome?
          (fun probe => probe.bind fun t =>
            if 300 < (jsTrim t).length then some (jsTrim t) else none) with
      | some c => c
      | none =>
        let substantialParagraphs :=
          (page.paragraphs.map jsTrim).filter fun t => 60 < t.length
        if 3 ≤ substantialParagraphs.length then
          jsJoin "\n\n" substantialParagraphs
        else ""
    if content ≠ "" then
      let fullContent := jsTake (collapseWs content) 8000
      let item := { item with fullContent := some fullContent }
      if item.description = "" || item.description.length < 150 then
        { item with description := jsTake fullContent 300 ++ "..." }
      else item
    else item

/-! ### Concrete instances used by counterexamples and witnesses -/

/-- Batch item: first occurrence of title key `ftc rule one`. -/
def c1ItemA : RawItem :=
  { title := "FTC rule one", link := "https://a.com/1", description := ""
    pubDate := "", source := "S1" }

/-- Batch item: same title key as `c1ItemA`, fresh URL `https://b.com/2`. -/
def c1ItemB : RawItem :=
  { title := "ftc rule one ", link := "https://b.com/2", description := ""
    pubDate := "", source := "S2" }

/-- Batch item: fresh title, same URL key as `c1ItemB`. -/
def c1ItemC : RawItem :=
  { title := "Other title", link := "HTTPS://B.com/2", description := ""
    pubDate := "", source := "S3" }

def c1Batch : List RawItem := [c1ItemA, c1ItemB, c1ItemC]

/-- A feed configuration for the health-sequence scenarios. -/
def c2Feed : Feed :=
  { name := "FTC Press Releases", url := "https://www.ftc.gov/feeds/press-release.xml"
    region := "US" }

/-- One failing scan: the fetch ends in `HTTP 500` after 3 attempts. -/
def c2FailScan : RssScanEnv :=
  { fetchResult := .failure (some "HTTP 500") 3, parsed := none
    xmlText := "", nowIso := "T" }

/-- One successful scan of an empty feed. -/
def c2OkScan : RssScanEnv :=
  { fetchResult := .success 200 1
    parsed := some { rssItems := none, atomEntries := none, rdfItems := none }
    xmlText := "", nowIso := "T" }

/-- A persisted record 100 days old (relative to `now = 0`). -/
def c3OldRecord : RegulatoryUpdate :=
  { title := "old ftc case", source_url := "https://ex.com/old"
    created_date := -8640000000 }

/-- A fresh batch item whose normalized title equals `c3OldRecord`'s. -/
def c3Item : RawItem :=
  { title := "Old FTC Case", link := "https://n.com/new", description := ""
    pubDate := "", source := "S" }

/-- A scrape configuration with no optional selectors. -/
def c5Config : ScrapeConfig :=
  { name := "X", url := "https://x.com/list", urlOrigin := "https://x.com"
    baseUrl := none }

/-- A DOM element whose anchor text is a 12-character title. -/
def c5Element : DomElement :=
  { anchorFound := true, textTitle := "Abcdefghijkl", href := "/a"
    dateSelProbe := none, dateGenProbe := none, descProbe := none
    authorSelProbe := none, authorGenProbe := none }

/-- The item DOM mode emits for `c5Element`. -/
def c5Item : RawItem :=
  { title := "Abcdefghijkl", link := "https://x.com/a", description := ""
    pubDate := "NOW", author := "", source := "X" }

/-- An RSS `<item>` node carrying only a title. -/
def c6Node : RssItem :=
  { title := some (.plain "Hello"), link := none, linkHref := none
    description := none, pubDate := none, dcDate := none }

/-- A parsed feed with one RSS item. -/
def c6Parsed : ParsedFeed :=
  { rssItems := some (.one c6Node), atomEntries := none, rdfItems := none }

/-- The item `parseRssFeed` emits for `c6Parsed`. -/
def c6Item : RawItem :=
  { title := "Hello", link := "", description := "", pubDate := "", source := "F" }

/-- An article page whose every probe succeeds. -/
def c8Page : PageData :=
  { fetchSuccess := true, docOk := true
    metaProbes := [some "2024-01-01"], authorProbes := [some "A. Author"]
    selectorTexts := [], paragraphs := [] }

/-- An item with a relative (non-absolute) link. -/
def c8Item : RawItem :=
  { title := "T", link := "/relative/path", description := "d"
    pubDate := "p", source := "S" }

/-! ### Helper lemmas -/

theorem dropThroughGt_length {l r : List Char} (h : dropThroughGt l = some r) :
    r.length < l.length := by
  induction l with
  | nil => simp [dropThroughGt] at h
  | cons c rest ih =>
    rw [dropThroughGt] at h
    split at h
    · cases h; simp
    · exact Nat.lt_trans (ih h) (by simp)

theorem dropThroughGt_none_no_gt {l : List Char} (h : dropThroughGt l = none) :
    ∀ c ∈ l, c ≠ '>' := by
  induction l with
  | nil => simp
  | cons c rest ih =>
    rw [dropThroughGt] at h
    split at h
    · cases h
    · intro d hd
      rcases List.mem_cons.mp hd with rfl | hd'
      · assumption
      · exact ih h d hd'

theorem hasTagFrom_eq_false_of_no_gt {l : List Char} (h : ∀ c ∈ l, c ≠ '>') :
    ∀ b, hasTagFrom b l = false := by
  induction l with
  | nil => intro b; rfl
  | cons c rest ih =>
    intro b
    rw [hasTagFrom, if_neg (fun hc => h c (by simp) hc.2)]
    split
    · exact ih (fun d hd => h d (List.mem_cons_of_mem _ hd)) true
    · exact ih (fun d hd => h d (List.mem_cons_of_mem _ hd)) b

theorem stripTagsGo_no_tag : ∀ fuel (l : List Char), l.length ≤ fuel →
    hasTagFrom false (stripTagsGo fuel l) = false := by
  intro fuel
  induction fuel with
  | zero =>
    intro l hl
    obtain rfl := List.eq_nil_of_length_eq_zero (Nat.le_zero.mp hl)
    rfl
  | succ fuel ih =>
    intro l hl
    cases l with
    | nil => rfl
    | cons c rest =>
      rw [stripTagsGo]
      by_cases hc : c = '<'
      · rw [if_pos hc]
        cases hdr : dropThroughGt rest with
        | some rest' =>
          exact ih rest' (by
            have := dropThroughGt_length hdr
            simp only [List.length_cons] at hl
            omega)
        | none =>
          rw [hasTagFrom, if_neg (by simp), if_pos hc]
          exact hasTagFrom_eq_false_of_no_gt (dropThroughGt_none_no_gt hdr) true
      · rw [if_neg hc, hasTagFrom, if_neg (by simp), if_neg hc]
        exact ih rest (by simp only [List.length_cons] at hl; omega)

theorem containsTag_stripTags (s : String) : containsTag (stripTags s) = false :=
  stripTagsGo_no_tag s.data.length s.data (Nat.le_refl _)

/-! ### Claim theorems -/

/-- Claim C4: for every URL and every HTTP response status in 400..499
other than 429, `fetchWithRetry` fails immediately without retrying,
returning `success: false` with attempt count 1. -/
theorem fetchWithRetry_client_error_single_attempt
    (status maxRetries : Nat) (server : Nat → FetchResp)
    (h400 : 400 ≤ status) (h500 : status < 500) (h429 : status ≠ 429)
    (hmr : 1 ≤ maxRetries) (hserver : server 0 = .http status) :
    fetchWithRetry server maxRetries = .failure (some s!"HTTP {status}") 1 := by
  obtain ⟨m, rfl⟩ : ∃ m, maxRetries = m + 1 := ⟨maxRetries - 1, by omega⟩
  rw [fetchWithRetry, fetchWithRetryGo, hserver]
  dsimp only
  rw [if_neg (by simp only [respOk, decide_eq_true_eq]; omega)]
  rw [if_neg (fun hc => h429 hc.1), if_pos ⟨h400, h500⟩]

/-- Witness for C4: a server that always answers 404 with the default
three retries yields one attempt and `HTTP 404`. -/
theorem fetchWithRetry_client_error_single_attempt_witness :
    (400 ≤ 404 ∧ 404 < 500 ∧ (404 : Nat) ≠ 429 ∧ 1 ≤ 3) ∧
    fetchWithRetry (fun _ => .http 404) 3 = .failure (some "HTTP 404") 1 :=
  ⟨by decide, by
    simpa using fetchWithRetry_client_error_single_attempt 404 3 (fun _ => .http 404)
      (by decide) (by decide) (by decide) (by decide) rfl⟩

/-- Claim C8: `enrichArticleContent` returns its input unchanged whenever
the item's link is missing or does not start with `http`, regardless of
what the article page would contain. -/
theorem enrich_noop_on_relative_link (page : PageData) (item : RawItem)
    (h : item.link = "" ∨ jsStartsWith item.link "http" = false) :
    enrichArticleContent page item = item := by
  rw [enrichArticleContent, if_pos]
  rcases h with h | h
  · exact Or.inl h
  · exact Or.inr (by simp [h])

/-- Witness for C8: an item with the relative link `/relative/path` passes
through a fully-probing page untouched. -/
theorem enrich_noop_on_relative_link_witness :
    enrichArticleContent c8Page c8Item = c8Item :=
  enrich_noop_on_relative_link c8Page c8Item (Or.inr (by decide))

/-- Claim C9: `fetchRssFeed` never returns more than 20 items, whatever
the feed contains. -/
theorem fetchRssFeed_cap_20 (feed : Feed) (fetchResult : FetchResult)
    (parsed : Option ParsedFeed) (xmlText : String)
    (parseDate : String → Option Int) (now : Int) (nowIso : String)
    (dateRangeDays : Int) :
    (fetchRssFeed feed fetchResult parsed xmlText parseDate now nowIso
      dateRangeDays).items.length ≤ 20 := by
  cases fetchResult with
  | success s a =>
    simp only [fetchRssFeed]
    exact List.length_take_le _ _
  | failure e a => simp [fetchRssFeed]

/-- Claim C10: the date filter keeps an item whose `pubDate` is empty,
and drops an item whose non-empty `pubDate` fails to parse (the `NaN`
date compares false against the cutoff). -/
theorem isWithinDateRange_asymmetric (parseDate : String → Option Int)
    (now : Int) (dateRangeDays : Int) :
    isWithinDateRange parseDate now "" dateRangeDays = true ∧
    ∀ s, s ≠ "" → parseDate s = none →
      isWithinDateRange parseDate now s dateRangeDays = false := by
  refine ⟨by simp [isWithinDateRange], fun s hs hp => ?_⟩
  simp [isWithinDateRange, hs, hp]

/-- Witness for C10: with a parser that rejects everything, the empty
date is kept and `"not a date"` is dropped. -/
theorem isWithinDateRange_asymmetric_witness :
    isWithinDateRange (fun _ => none) 0 "" 14 = true ∧
    isWithinDateRange (fun _ => none) 0 "not a date" 14 = false :=
  ⟨(isWithinDateRange_asymmetric (fun _ => none) 0 14).1,
   (isWithinDateRange_asymmetric (fun _ => none) 0 14).2 "not a date" (by decide) rfl⟩

/-- Claim C7 (counterexample): the claim promises trimmed output, but
`extractTextContent` trims BEFORE stripping tags, so the plain value
`"x <b>"` yields `"x "` — a result with trailing whitespace (its own
trim differs from it). -/
theorem extractTextContent_not_trimmed_cex :
    extractTextContent (some (.plain "x <b>")) = "x " ∧ jsTrim "x " ≠ "x " :=
  ⟨by decide, by decide⟩

/-- Claim C7 (amended): for every text-bearing feed value — plain,
`{#text}` or `{#cdata}` — the result is tag-stripped (it contains no
completable `<...>` tag), though tag removal may expose leading or
trailing whitespace because trimming happens first. -/
theorem extractTextContent_tag_free (v : Option FeedText) :
    containsTag (extractTextContent v) = false := by
  match v with
  | none => rfl
  | some (.plain s) => exact containsTag_stripTags (jsTrim s)
  | some (.textNode s) =>
    by_cases hs : s = ""
    · simp [extractTextContent, hs, containsTag, hasTagFrom]
    · simpa [extractTextContent, hs] using containsTag_stripTags (jsTrim s)
  | some (.cdataNode s) =>
    by_cases hs : s = ""
    · simp [extractTextContent, hs, containsTag, hasTagFrom]
    · simpa [extractTextContent, hs] using containsTag_stripTags (jsTrim s)

/-- Claim C2 (counterexample): a source with no prior health record that
fails three consecutive scans ends at `consecutive_failures = 2`, not 3
— the record created on the first failing scan carries no
`consecutive_failures` value, so the first failure is never counted. -/
theorem health_three_failures_fresh_source_cex :
    (healthAfterScans c2Feed (fun _ => none) 0 14
        [c2FailScan, c2FailScan, c2FailScan]).map
      (fun h => (h.consecutive_failures, h.status)) = some (some 2, "failing") ∧
    (2 : Nat) ≠ 3 :=
  ⟨by decide, by decide⟩

/-- Claim C2 (amended): once a health record exists (here created by one
successful scan), three consecutive failing scans show
`consecutive_failures = 3` with status `failing`; a subsequent
successful scan resets to 0 with status `healthy`; and on every update
of an existing record `consecutive_failures` increments (from the stored
value, a missing one counting as 0) exactly on `failing` status and
resets to 0 otherwise. -/
theorem health_consecutive_failures_amended :
    (healthAfterScans c2Feed (fun _ => none) 0 14
        [c2OkScan, c2FailScan, c2FailScan, c2FailScan]).map
      (fun h => (h.consecutive_failures, h.status)) = some (some 3, "failing") ∧
    (healthAfterScans c2Feed (fun _ => none) 0 14
        [c2OkScan, c2FailScan, c2FailScan, c2FailScan, c2OkScan]).map
      (fun h => (h.consecutive_failures, h.status)) = some (some 0, "healthy") ∧
    ∀ prev health : HealthRecord,
      (updateHealthRecord prev health).consecutive_failures =
        some (if health.status = "failing"
          then prev.consecutive_failures.getD 0 + 1 else 0) :=
  ⟨by decide, by decide, fun _ _ => rfl⟩

/-- Claim C3: the history query is NOT bounded to a recent window — the
shipped `filter({})` returns every record (the 60-day cutoff the code
computes is unused), so a batch item matching only a 100-day-old record
is dropped, where the window-bounded query the spec (and the code's own
comment) describes would keep it.  The cap at 500 and the drop-on-match
behaviour themselves are as claimed. -/
theorem dedup_query_unbounded_window_eval :
    dedupQueryCode [c3OldRecord] = [c3OldRecord] ∧
    dedupQuerySpecWindow 0 [c3OldRecord] = [] ∧
    deduplicateItems [c3Item] (some (dedupQueryCode [c3OldRecord])) = [] ∧
    deduplicateItems [c3Item] (some (dedupQuerySpecWindow 0 [c3OldRecord])) = [c3Item] :=
  ⟨rfl, by decide, by decide, by decide⟩

theorem batchDedupeAux_sublist (items : List RawItem) (seenT seenU : List String) :
    (batchDedupeAux items seenT seenU).Sublist items := by
  induction items generalizing seenT seenU with
  | nil => simp [batchDedupeAux]
  | cons item rest ih =>
    rw [batchDedupeAux]
    split
    · exact List.Sublist.cons _ (ih _ _)
    · split
      · exact List.Sublist.cons _ (ih _ _)
      · exact List.Sublist.cons₂ _ (ih _ _)

theorem mem_batchDedupeAux {items : List RawItem} {seenT seenU : List String}
    {it : RawItem} (h : it ∈ batchDedupeAux items seenT seenU) :
    titleKey it ∉ seenT ∧ (urlKey it = "" ∨ urlKey it ∉ seenU) := by
  induction items generalizing seenT seenU with
  | nil => simp [batchDedupeAux] at h
  | cons item rest ih =>
    rw [batchDedupeAux] at h
    split at h
    · exact ih h
    · split at h
      · exact ih h
      · rcases List.mem_cons.mp h with rfl | h2
        · refine ⟨by simpa using ‹¬seenT.contains (titleKey it) = true›, ?_⟩
          rcases Decidable.not_and_iff_or_not.mp
            ‹¬(urlKey it ≠ "" ∧ seenU.contains (urlKey it) = true)› with h' | h'
          · exact Or.inl (Decidable.not_not.mp h')
          · exact Or.inr (by simpa using h')
        · have hrec := ih h2
          refine ⟨fun hm => hrec.1 (List.mem_cons_of_mem _ hm), ?_⟩
          rcases hrec.2 with h0 | hn
          · exact Or.inl h0
          · refine Or.inr fun hm => hn ?_
            split
            · exact List.mem_cons_of_mem _ hm
            · exact hm

theorem batchDedupeAux_pairwise (items : List RawItem) (seenT seenU : List String) :
    (batchDedupeAux items seenT seenU).Pairwise
      (fun a b => titleKey a ≠ titleKey b ∧ (urlKey a = "" ∨ urlKey a ≠ urlKey b)) := by
  induction items generalizing seenT seenU with
  | nil => simp [batchDedupeAux]
  | cons item rest ih =>
    rw [batchDedupeAux]
    split
    · exact ih _ _
    · split
      · exact ih _ _
      · refine List.Pairwise.cons (fun b hb => ?_) (ih _ _)
        have hmem := mem_batchDedupeAux hb
        refine ⟨fun heq => hmem.1 (heq ▸ List.mem_cons_self _ _), ?_⟩
        by_cases hu : urlKey item = ""
        · exact Or.inl hu
        · refine Or.inr fun heq => ?_
          rcases hmem.2 with hb0 | hbn
          · exact hu (heq.trans hb0)
          · exact hbn (by rw [← heq]; simp [hu])

/-- Claim C1 (counterexample): "of any pair with identical normalized
titles or identical normalized non-empty URLs, the first occurrence is
kept and the later one is dropped" fails: in `c1Batch`, items B and C
share the URL key `https://b.com/2`, yet B (the first occurrence) is
dropped — for its title, whose key it never got to record — and C (the
later one) is kept. -/
theorem dedupe_first_kept_later_dropped_cex :
    ¬ (∀ i j : Fin c1Batch.length, i < j →
        (titleKey (c1Batch.get i) = titleKey (c1Batch.get j) ∨
          (urlKey (c1Batch.get i) ≠ "" ∧
            urlKey (c1Batch.get i) = urlKey (c1Batch.get j))) →
        c1Batch.get i ∈ deduplicateItems c1Batch (some []) ∧
        c1Batch.get j ∉ deduplicateItems c1Batch (some [])) := by
  decide

/-- Claim C1 (amended): the deduplicator returns a subsequence of the
batch in which normalized (lowercased, trimmed) titles are pairwise
distinct and non-empty normalized URLs are pairwise distinct — at most
one retained item per key.  (The retained representative of a key need
not be the key's first occurrence in the batch, since a dropped item
records neither of its keys.) -/
theorem dedupe_at_most_one_per_key (items : List RawItem)
    (queryResult : Option (List RegulatoryUpdate)) :
    (deduplicateItems items queryResult).Sublist items ∧
    (deduplicateItems items queryResult).Pairwise
      (fun a b => titleKey a ≠ titleKey b ∧ (urlKey a = "" ∨ urlKey a ≠ urlKey b)) := by
  have hsub : (deduplicateItems items queryResult).Sublist (batchDedupe items) := by
    cases queryResult with
    | none =>
      simp only [deduplicateItems]
      split
      · exact List.nil_sublist _
      · exact List.Sublist.refl _
    | some fetched =>
      simp only [deduplicateItems]
      split
      · exact List.nil_sublist _
      · exact List.filter_sublist _
  exact ⟨hsub.trans (batchDedupeAux_sublist items [] []),
    (batchDedupeAux_pairwise items [] []).sublist hsub⟩

theorem mem_scrapeDomAux {config : ScrapeConfig} {nowIso : String}
    {els : List DomElement} {seen : List String} {it : RawItem}
    (h : it ∈ scrapeDomAux config nowIso els seen) :
    (10 ≤ it.title.length ∧ it.title.length ≤ 300 ∧ stoplistDom it.title = false) ∧
    jsLower it.title ∉ seen := by
  induction els generalizing seen with
  | nil => simp [scrapeDomAux] at h
  | cons el rest ih =>
    simp only [scrapeDomAux] at h
    split at h
    · exact ih h
    · split at h
      · exact ih h
      · split at h
        · exact ih h
        · rcases List.mem_cons.mp h with rfl | h2
          · have hg1 := ‹¬(jsTrim (collapseWs el.textTitle) = "" ∨
              (jsTrim (collapseWs el.textTitle)).length < 10 ∨
              seen.contains (jsLower (jsTrim (collapseWs el.textTitle))) = true)›
            have hg2 := ‹¬(stoplistDom (jsTrim (collapseWs el.textTitle)) = true ∨
              300 < (jsTrim (collapseWs el.textTitle)).length)›
            push_neg at hg1 hg2
            dsimp only
            refine ⟨⟨by omega, by omega, by simpa using hg2.1⟩, ?_⟩
            simpa using hg1.2.2
          · have hrec := ih h2
            exact ⟨hrec.1, fun hm => hrec.2 (List.mem_cons_of_mem _ hm)⟩

theorem scrapeDomAux_pairwise (config : ScrapeConfig) (nowIso : String)
    (els : List DomElement) (seen : List String) :
    (scrapeDomAux config nowIso els seen).Pairwise
      (fun a b => jsLower a.title ≠ jsLower b.title) := by
  induction els generalizing seen with
  | nil => simp [scrapeDomAux]
  | cons el rest ih =>
    simp only [scrapeDomAux]
    split
    · exact ih _
    · split
      · exact ih _
      · split
        · exact ih _
        · refine List.Pairwise.cons (fun b hb => fun heq => ?_) (ih _)
          exact (mem_scrapeDomAux hb).2 (heq ▸ List.mem_cons_self _ _)

/-- Claim C5 (counterexample): DOM-query mode does NOT apply the same
filtering as regex-only mode — its length gate is `< 10`, not `< 15`:
the 12-character title `Abcdefghijkl` is kept by DOM mode but dropped by
regex-only mode on the same page data.  (DOM mode also stoplists
`sign up`, which regex-only mode does not.) -/
theorem scrapeDom_not_same_filtering_cex :
    scrapeDom c5Config [c5Element] "NOW" = [c5Item] ∧
    c5Item.title.length < 15 ∧
    scrapeRegexOnly c5Config
      [{ g1 := some "/a", g2 := some "Abcdefghijkl", g3 := none, g4 := none }]
      "NOW" = [] :=
  ⟨by decide, by decide, by decide⟩

/-- Claim C5 (amended): DOM-query mode filters like regex-only mode in
kind but not in detail: every emitted candidate's title has at least 10
(not 15) characters and at most 300, matches none of the stoplist
entries `view all` / `read more` / `subscribe` / `sign up` (one more
entry than regex-only mode), and candidates are deduplicated by
lowercase title within the page. -/
theorem scrapeDom_filtering_amended (config : ScrapeConfig)
    (elements : List DomElement) (nowIso : String) :
    (∀ it ∈ scrapeDom config elements nowIso,
      10 ≤ it.title.length ∧ it.title.length ≤ 300 ∧ stoplistDom it.title = false) ∧
    (scrapeDom config elements nowIso).Pairwise
      (fun a b => jsLower a.title ≠ jsLower b.title) :=
  ⟨fun _ hit => (mem_scrapeDomAux hit).1,
    scrapeDomAux_pairwise config nowIso (elements.take 20) []⟩

/-- Witness for C5 (amended): the emitted item for `c5Element` satisfies
the length and stoplist bounds. -/
theorem scrapeDom_filtering_amended_witness :
    10 ≤ c5Item.title.length ∧ c5Item.title.length ≤ 300 ∧
    stoplistDom c5Item.title = false :=
  (scrapeDom_filtering_amended c5Config [c5Element] "NOW").1 c5Item (by decide)

theorem rssBranchItems_title_ne (nodes : List RssItem) (fn : String) :
    ∀ it ∈ rssBranchItems nodes fn, it.title ≠ "" := by
  intro it hit
  simp only [rssBranchItems, List.mem_filterMap] at hit
  obtain ⟨a, -, ha⟩ := hit
  split at ha
  · obtain rfl := Option.some.inj ha
    dsimp only
    assumption
  · simp at ha

theorem atomBranchItems_title_ne (nodes : List AtomEntry) (fn : String) :
    ∀ it ∈ atomBranchItems nodes fn, it.title ≠ "" := by
  intro it hit
  simp only [atomBranchItems, List.mem_filterMap] at hit
  obtain ⟨a, -, ha⟩ := hit
  split at ha
  · obtain rfl := Option.some.inj ha
    dsimp only
    assumption
  · simp at ha

theorem rdfBranchItems_title_ne (nodes : List RssItem) (fn : String) :
    ∀ it ∈ rdfBranchItems nodes fn, it.title ≠ "" := by
  intro it hit
  simp only [rdfBranchItems, List.mem_filterMap] at hit
  obtain ⟨a, -, ha⟩ := hit
  split at ha
  · obtain rfl := Option.some.inj ha
    dsimp only
    assumption
  · simp at ha

theorem parseRssFeedFallback_title_ne (xmlText fn : String) :
    ∀ it ∈ parseRssFeedFallback xmlText fn, it.title ≠ "" := by
  intro it hit
  simp only [parseRssFeedFallback] at hit
  split at hit
  · simp only [List.mem_filterMap] at hit
    obtain ⟨a, -, ha⟩ := hit
    split at ha
    · obtain rfl := Option.some.inj ha
      dsimp only
      assumption
    · simp at ha
  · simp only [List.mem_filterMap] at hit
    obtain ⟨a, -, ha⟩ := hit
    split at ha
    · obtain rfl := Option.some.inj ha
      dsimp only
      assumption
    · simp at ha

/-- Claim C6: every item returned by the feed parser — from the three
structured branches as well as the regex fallback — has a non-empty
title; nodes without one produce no item. -/
theorem parseFeed_titles_nonempty (parsed : Option ParsedFeed)
    (xmlText feedName : String) :
    ∀ it ∈ parseRssFeed parsed xmlText feedName, it.title ≠ "" := by
  intro it hit
  cases parsed with
  | none => exact parseRssFeedFallback_title_ne xmlText feedName it hit
  | some p =>
    simp only [parseRssFeed] at hit
    rcases List.mem_append.mp hit with hAB | hC
    · rcases List.mem_append.mp hAB with hA | hB
      · cases hbr : p.rssItems with
        | some ns =>
          rw [hbr] at hA
          exact rssBranchItems_title_ne ns.toList feedName it hA
        | none => rw [hbr] at hA; simp at hA
      · cases hbr : p.atomEntries with
        | some ns =>
          rw [hbr] at hB
          exact atomBranchItems_title_ne ns.toList feedName it hB
        | none => rw [hbr] at hB; simp at hB
    · cases hbr : p.rdfItems with
      | some ns =>
        rw [hbr] at hC
        exact rdfBranchItems_title_ne ns.toList feedName it hC
      | none => rw [hbr] at hC; simp at hC

/-- Witness for C6: the single item parsed from `c6Parsed` has the
non-empty title `Hello`. -/
theorem parseFeed_titles_nonempty_witness : c6Item.title ≠ "" :=
  parseFeed_titles_nonempty (some c6Parsed) "" "F" c6Item (by decide)

end Regupulse
